import Mathlib

/-!
Verification of the Historical Bar Retrieval Engine of
`rafaayud/stock_data_services` (file
`src/server/trading/infraestructure/tws_adapter.py` and the value objects in
`src/server/trading/domain/value_objects.py`).

Shallow embedding conventions:
* Python `datetime` values are modelled by `PyDatetime`: a wall-clock reading
  in microseconds together with an optional UTC offset in seconds
  (`none` = naive datetime).  Python comparison of datetimes compares
  wall-clock values when both are naive, absolute instants when both are
  aware, and raises `TypeError` on a naive/aware mix; `dtLe` mirrors this.
* Prices and volumes are modelled as `Int` (the float-specific corner cases
  such as NaN play no role in the verified properties).
* `math.ceil(a / b)` on the exact integer quantities of
  `_compute_duration_str` is modelled by the exact ceiling division
  `ceilDiv`.
* Exceptions are modelled with `Except`.
-/

namespace StockData

/-- Python exception kinds raised by the modelled code paths. -/
inductive PyErr where
  | valueError
  | typeError
  | notConnected
  | qualifyFailed
  deriving DecidableEq, Repr

/-- Model of a Python `datetime`: wall-clock microseconds plus an optional
UTC offset in seconds (`none` models a naive datetime). -/
structure PyDatetime where
  wall : Int
  tz : Option Int
  deriving DecidableEq, Repr

/-- Absolute instant (in microseconds since the epoch) denoted by a
datetime; for a naive datetime this is just its wall-clock reading. -/
def PyDatetime.instant (d : PyDatetime) : Int :=
  d.wall - (d.tz.getD 0) * 1000000

/-- Python comparison a ≤ b on datetimes: wall-clock for naive/naive,
instants for aware/aware, `TypeError` on a mixed pair. -/
def dtLe (a b : PyDatetime) : Except PyErr Bool :=
  match a.tz, b.tz with
  | none, none => .ok (decide (a.wall ≤ b.wall))
  | some _, some _ => .ok (decide (a.instant ≤ b.instant))
  | _, _ => .error .typeError

/-- Model of `datetime.replace(tzinfo=timezone.utc)` applied only when the
datetime is naive, as in `TimeRange.__post_init__`. -/
def toUtcIfNaive (d : PyDatetime) : PyDatetime :=
  match d.tz with
  | none => { d with tz := some 0 }
  | some _ => d

/-- Embedding of the domain value object `TimeRange` (fields `start` and
`end`; the latter is named `stop` here because `end` is a Lean keyword). -/
structure TimeRange where
  start : PyDatetime
  stop : PyDatetime
  deriving DecidableEq, Repr

/-- Embedding of `TimeRange.__post_init__`: raise `ValueError` when
`end <= start` (which itself raises `TypeError` on a naive/aware mix), then
attach UTC to any naive endpoint. -/
def TimeRange.make (s e : PyDatetime) : Except PyErr TimeRange :=
  match dtLe e s with
  | .error err => .error err
  | .ok true => .error .valueError
  | .ok false => .ok ⟨toUtcIfNaive s, toUtcIfNaive e⟩

/-- Span of a time range in microseconds (difference of instants; both
endpoints of a constructed `TimeRange` are aware, so Python's
`end - start` subtraction of aware datetimes yields exactly this). -/
def TimeRange.spanUs (tr : TimeRange) : Int :=
  tr.stop.instant - tr.start.instant

/-- Result of `_compute_duration_str`: an IB duration tag with its
magnitude (the source renders these as the strings "n S", "n D", ...). -/
inductive DurationStr where
  | S (n : Nat)
  | D (n : Nat)
  | W (n : Nat)
  | M (n : Nat)
  | Y (n : Nat)
  deriving DecidableEq, Repr

/-- Exact ceiling division on naturals, modelling `math.ceil(a / b)`. -/
def ceilDiv (a b : Nat) : Nat := (a + b - 1) / b

/-- Embedding of `_compute_duration_str` (tws_adapter.py, lines 69-98).
`int(delta.total_seconds())` truncates the span to whole seconds; for the
positive spans at hand this is floor division of the microsecond span. -/
def computeDurationStr (tr : TimeRange) : Except PyErr DurationStr :=
  let totalSeconds : Nat := tr.spanUs.toNat / 1000000
  if totalSeconds = 0 then .error .valueError
  else if totalSeconds ≤ 86400 then .ok (.S totalSeconds)
  else
    let totalDays := ceilDiv totalSeconds 86400
    if totalDays ≤ 365 then .ok (.D totalDays)
    else
      let totalWeeks := ceilDiv totalDays 7
      if totalWeeks ≤ 52 * 5 then .ok (.W totalWeeks)
      else
        let totalMonths := ceilDiv totalDays 30
        if totalMonths ≤ 12 * 5 then .ok (.M totalMonths)
        else .ok (.Y (ceilDiv totalDays 365))

/-- Number of microseconds covered by a duration descriptor, taking the
spec's unit lengths: 1 day = 86400 s, 1 week = 7 days, 1 month = 30 days,
1 year = 365 days. -/
def coverUs : DurationStr → Int
  | .S n => (n : Int) * 1000000
  | .D n => (n : Int) * 86400 * 1000000
  | .W n => (n : Int) * 7 * 86400 * 1000000
  | .M n => (n : Int) * 30 * 86400 * 1000000
  | .Y n => (n : Int) * 365 * 86400 * 1000000

/-- Modelled from the spec (§4.1 Window Planner), for comparison with
`computeDurationStr`: classify a span of `k` whole seconds into the
smallest accepted unit using the spec's ascending thresholds, each
magnitude being the ceiling of the span divided by that unit's length. -/
def plannerSpec (k : Nat) : DurationStr :=
  if k ≤ 86400 then .S k
  else if ceilDiv k 86400 ≤ 365 then .D (ceilDiv k 86400)
  else if ceilDiv k (86400 * 7) ≤ 52 * 5 then .W (ceilDiv k (86400 * 7))
  else if ceilDiv k (86400 * 30) ≤ 12 * 5 then .M (ceilDiv k (86400 * 30))
  else .Y (ceilDiv k (86400 * 365))

/-! Arithmetic facts about `ceilDiv`. -/

theorem ceilDiv_le_iff {d : Nat} (hd : 0 < d) (a m : Nat) :
    ceilDiv a d ≤ m ↔ a ≤ d * m := by
  unfold ceilDiv
  rw [Nat.div_le_iff_le_mul_add_pred hd]
  omega

theorem le_mul_ceilDiv {d : Nat} (hd : 0 < d) (a : Nat) :
    a ≤ d * ceilDiv a d :=
  (ceilDiv_le_iff hd a (ceilDiv a d)).mp (Nat.le_refl _)

theorem ceilDiv_ceilDiv {a b : Nat} (ha : 0 < a) (hb : 0 < b) (k : Nat) :
    ceilDiv (ceilDiv k a) b = ceilDiv k (a * b) := by
  have hab : 0 < a * b := Nat.mul_pos ha hb
  apply Nat.le_antisymm
  · rw [ceilDiv_le_iff hb, ceilDiv_le_iff ha, ← Nat.mul_assoc]
    exact le_mul_ceilDiv hab k
  · rw [ceilDiv_le_iff hab]
    have h1 : ceilDiv k a ≤ b * ceilDiv (ceilDiv k a) b := le_mul_ceilDiv hb _
    have h2 : k ≤ a * ceilDiv k a := le_mul_ceilDiv ha _
    calc k ≤ a * ceilDiv k a := h2
      _ ≤ a * (b * ceilDiv (ceilDiv k a) b) := Nat.mul_le_mul_left _ h1
      _ = a * b * ceilDiv (ceilDiv k a) b := by ring

/-- Embedding of the domain value object `OHLCV`
(value_objects.py, lines 118-132): date, open, high, low, close are
mandatory; volume is optional (`none` = absent).  Dates are absolute
instants in microseconds; prices and volumes are modelled as `Int`. -/
structure OHLCV where
  date : Int
  open_ : Int
  high : Int
  low : Int
  close : Int
  volume : Option Int
  deriving DecidableEq, Repr

/-- Provider-native bar as returned by `ib_async`
(`reqHistoricalDataAsync`): all fields present, volume possibly a negative
sentinel.  The bar date is modelled as a UTC instant in microseconds (the
source normalises `str`/`date` bar dates to UTC datetimes before use). -/
structure IBBar where
  date : Int
  open_ : Int
  high : Int
  low : Int
  close : Int
  volume : Int
  deriving DecidableEq, Repr

/-- Embedding of `_bars_to_ohlcv` (tws_adapter.py, lines 146-157): map each
provider bar to an `OHLCV`, turning a negative volume into `none`. -/
def barsToOhlcv (ibBars : List IBBar) : List OHLCV :=
  ibBars.map fun bar =>
    { date := bar.date
      open_ := bar.open_
      high := bar.high
      low := bar.low
      close := bar.close
      volume := if bar.volume ≥ (0 : Int) then some bar.volume else none }

/-- Behaviour of the provider for a single-instrument retrieval: the
response of `reqHistoricalDataAsync` to the n-th call of the pagination
loop, given the current `endDateTime` cursor (an instant in microseconds).
`Except.error` models the call raising an exception. -/
def Provider : Type := Nat → Int → Except PyErr (List IBBar)

/-- Calls issued to the provider by one `get_historical_bars` run. -/
structure CallTrace where
  contractsBuilt : Nat
  qualifyCalls : Nat
  dataRequests : Nat
  deriving DecidableEq, Repr

/-- Duration computation of one loop iteration (tws_adapter.py, lines
269-271): build `TimeRange(start, current_end)` — whose constructor may
itself raise — then `_compute_duration_str` on it.  `cur` is the current
cursor, wrapped as a UTC-aware datetime. -/
def durationFor (startDt : PyDatetime) (cur : Int) : Except PyErr DurationStr :=
  match TimeRange.make startDt ⟨cur, some 0⟩ with
  | .error err => .error err
  | .ok tr => computeDurationStr tr

/-- Embedding of the pagination loop of `get_historical_bars`
(tws_adapter.py, lines 263-307).  Arguments: remaining iteration budget
(`for _ in range(max_iterations)`), index of the next provider call,
current `endDateTime` cursor, and the accumulator `all_ohlcv`.  Returns
the final bar list together with the number of provider data requests
made.  Any exception inside the loop is caught by the source's
`except Exception: return []`, modelled by returning `[]`. -/
def fetchLoop (provider : Provider) (startDt : PyDatetime) :
    Nat → Nat → Int → List OHLCV → List OHLCV × Nat
  | 0, _, _, acc => (acc, 0)
  | fuel + 1, idx, cur, acc =>
    match durationFor startDt cur with
    | .error _ => ([], 0)
    | .ok _ =>
      match provider idx cur with
      | .error _ => ([], 1)
      | .ok [] => (acc, 1)
      | .ok (b :: rest) =>
        let acc2 := barsToOhlcv (b :: rest) ++ acc
        if b.date ≤ startDt.instant then (acc2, 1)
        else
          let r := fetchLoop provider startDt fuel (idx + 1) b.date acc2
          (r.1, r.2 + 1)

/-- Connection state of the adapter: `ibConnected` models
`self._ib.isConnected()`, `connected` models `self._connected`. -/
structure TWSAdapter where
  ibConnected : Bool
  connected : Bool
  deriving DecidableEq, Repr

/-- Freshly constructed adapter (`__init__`): not connected. -/
def initAdapter : TWSAdapter := ⟨false, false⟩

/-- Effect of a successful `connect` on the adapter state. -/
def connectA (_a : TWSAdapter) : TWSAdapter := ⟨true, true⟩

/-- Embedding of `disconnect` (tws_adapter.py, lines 188-193): tear down
and clear `self._connected` only when the IB session reports connected. -/
def disconnectA (a : TWSAdapter) : TWSAdapter :=
  if a.ibConnected then ⟨false, false⟩ else a

/-- Hard iteration ceiling of the pagination loop (`max_iterations`). -/
def maxIterations : Nat := 200

/-- Embedding of `get_historical_bars` (tws_adapter.py, lines 232-307) for
a fixed instrument.  `qualifyRes` is the outcome of
`qualifyContractsAsync`: an exception (which propagates to the caller), an
empty qualification (`ok false`, turned into a `ValueError`), or success.
The result carries the `CallTrace` of contract builds and provider calls.
Note the pagination loop never raises: its `try/except` collapses every
in-loop failure to a normal empty-list return. -/
def getHistoricalBars (a : TWSAdapter) (qualifyRes : Except PyErr Bool)
    (provider : Provider) (tr : TimeRange) :
    Except PyErr (List OHLCV) × CallTrace :=
  if a.connected = false then (.error .notConnected, ⟨0, 0, 0⟩)
  else
    match qualifyRes with
    | .error err => (.error err, ⟨1, 1, 0⟩)
    | .ok false => (.error .qualifyFailed, ⟨1, 1, 0⟩)
    | .ok true =>
      let r := fetchLoop provider tr.start maxIterations 0 tr.stop.instant []
      (.ok r.1, ⟨1, 1, r.2⟩)

/-! Fan-out Scheduler (`get_historical_bars_multiple`). -/

/-- Instrument symbols (the domain `Symbol` value object normalises to a
non-empty upper-case string; here the canonical value itself suffices). -/
abbrev Symbol : Type := String

/-- Result mapping of a batch call: a Python `dict` keyed by symbol,
modelled as an association list written left to right. -/
abbrev BarsDict : Type := List (Symbol × List OHLCV)

/-- Model of `results[symbol] = bars`: replace the binding if the key is
present, else append it. -/
def dictSet : BarsDict → Symbol → List OHLCV → BarsDict
  | [], k, v => [(k, v)]
  | (k₀, v₀) :: rest, k, v =>
    if k₀ = k then (k, v) :: rest else (k₀, v₀) :: dictSet rest k v

/-- Model of `results.get(symbol)`: first binding for the key, if any. -/
def dictGet : BarsDict → Symbol → Option (List OHLCV)
  | [], _ => none
  | (k₀, v₀) :: rest, k => if k₀ = k then some v₀ else dictGet rest k

/-- Outcome of awaiting `asyncio.wait_for(self.get_historical_bars(...))`
for one symbol inside `_fetch_one` (tws_adapter.py, lines 326-342):
the inner call returned a bar list, the wait timed out, or the inner call
raised an exception that `_fetch_one` does not catch (for example a
qualification failure — `_fetch_one` only catches `asyncio.TimeoutError`). -/
inductive FetchOutcome where
  | ok (bars : List OHLCV)
  | timeout
  | exn (err : PyErr)
  deriving DecidableEq, Repr

/-- Embedding of `_fetch_one` (tws_adapter.py, lines 326-342): a timeout is
converted to `(symbol, [])`; any other exception propagates (it becomes an
`Exception` item in the `asyncio.gather(..., return_exceptions=True)`
result list). -/
def fetchOne (outcome : Symbol → FetchOutcome) (s : Symbol) :
    Except PyErr (Symbol × List OHLCV) :=
  match outcome s with
  | .ok bars => .ok (s, bars)
  | .timeout => .ok (s, [])
  | .exn err => .error err

/-- Embedding of the result-merging loop of `get_historical_bars_multiple`
(tws_adapter.py, lines 347-352): walk the gathered outcomes in task order,
skip exception items, store the rest in the dict. -/
def mergeResults (acc : BarsDict) :
    List (Except PyErr (Symbol × List OHLCV)) → BarsDict
  | [] => acc
  | .error _ :: rest => mergeResults acc rest
  | .ok (s, bars) :: rest => mergeResults (dictSet acc s bars) rest

/-- Embedding of `get_historical_bars_multiple` (tws_adapter.py, lines
309-354): check the connection flag, run `_fetch_one` per symbol (the
per-symbol behaviour is the oracle `outcome`; `asyncio.gather` with
`return_exceptions=True` keeps task order and never raises), then merge. -/
def getHistoricalBarsMultiple (a : TWSAdapter)
    (outcome : Symbol → FetchOutcome) (symbols : List Symbol) :
    Except PyErr BarsDict :=
  if a.connected = false then .error .notConnected
  else .ok (mergeResults [] (symbols.map (fetchOne outcome)))

/-- Value recorded in the result dict for a symbol whose `_fetch_one`
completed without raising. -/
def recordedBars (outcome : Symbol → FetchOutcome) (s : Symbol) :
    List OHLCV :=
  match outcome s with
  | .ok bars => bars
  | .timeout => []
  | .exn _ => []

/-! Concurrency gate of the Fan-out Scheduler (`asyncio.Semaphore`). -/

/-- Phase of one `_fetch_one` task: not yet started its guarded section,
holding a semaphore permit and running, or finished (permit released). -/
inductive TaskPhase where
  | pending
  | running
  | done
  deriving DecidableEq, Repr

/-- State of a batch run: the semaphore's free-permit count and the phase
of every scheduled task. -/
structure SchedState where
  permits : Nat
  phases : List TaskPhase
  deriving DecidableEq, Repr

/-- Initial state of a batch with `n` tasks under concurrency limit
`limit`: `asyncio.Semaphore(max_concurrent)` starts with `limit` free
permits and no task has entered its `async with semaphore` block. -/
def SchedState.init (limit n : Nat) : SchedState :=
  ⟨limit, List.replicate n .pending⟩

/-- Replace the phase of the i-th task. -/
def setPhase (l : List TaskPhase) (i : Nat) (p : TaskPhase) :
    List TaskPhase :=
  l.set i p

/-- Interleaving semantics of the guarded tasks: a pending task may enter
the `async with semaphore` block only when a permit is free (taking one);
a running task may finish (giving its permit back).  Nothing else touches
the semaphore — the body of `_fetch_one` runs entirely inside the block. -/
inductive SchedStep : SchedState → SchedState → Prop
  | acquire (s : SchedState) (i : Nat) (hi : s.phases.get? i = some .pending)
      (hp : 0 < s.permits) :
      SchedStep s ⟨s.permits - 1, setPhase s.phases i .running⟩
  | release (s : SchedState) (i : Nat) (hi : s.phases.get? i = some .running) :
      SchedStep s ⟨s.permits + 1, setPhase s.phases i .done⟩

/-- States reachable from the start of a batch with `n` tasks and
concurrency limit `limit`. -/
def SchedReachable (limit n : Nat) (s : SchedState) : Prop :=
  Relation.ReflTransGen SchedStep (SchedState.init limit n) s

/-- Number of tasks currently inside their guarded section. -/
def runningCount (l : List TaskPhase) : Nat :=
  l.countP (fun p => p = .running)

/-!
Theorems for the claims, with their supporting lemmas.
-/

/-- C8: for every provider-native bar, `_bars_to_ohlcv` produces an OHLCV
whose volume is absent exactly when the provider-reported volume is below
zero and equal to the reported volume (including zero) otherwise, while
date, open, high, low and close are always carried over (and are present
by the shape of the `OHLCV` type). -/
theorem c8_bars_to_ohlcv_volume (ibBars : List IBBar) :
    List.Forall₂ (fun (bar : IBBar) (o : OHLCV) =>
      o.date = bar.date ∧ o.open_ = bar.open_ ∧ o.high = bar.high ∧
      o.low = bar.low ∧ o.close = bar.close ∧
      (o.volume = none ↔ bar.volume < 0) ∧
      (0 ≤ bar.volume → o.volume = some bar.volume))
      ibBars (barsToOhlcv ibBars) := by
  induction ibBars with
  | nil => simp [barsToOhlcv]
  | cons b rest ih =>
    refine List.Forall₂.cons ?_ ih
    refine ⟨rfl, rfl, rfl, rfl, rfl, ?_, ?_⟩
    · by_cases h : b.volume ≥ (0 : Int)
      · simp [h]
      · simp [h]
        omega
    · intro h
      simp [h]

/-- Each run of the pagination loop makes at most as many provider data
requests as its remaining iteration budget. -/
theorem fetchLoop_calls_le (provider : Provider) (startDt : PyDatetime) :
    ∀ (fuel idx : Nat) (cur : Int) (acc : List OHLCV),
      (fetchLoop provider startDt fuel idx cur acc).2 ≤ fuel := by
  intro fuel
  induction fuel with
  | zero => intro idx cur acc; simp [fetchLoop]
  | succ n ih =>
    intro idx cur acc
    simp only [fetchLoop]
    cases durationFor startDt cur with
    | error err => simp
    | ok d =>
      cases hp : provider idx cur with
      | error err => simp
      | ok bars =>
        cases bars with
        | nil => simp
        | cons b rest =>
          by_cases hb : b.date ≤ startDt.instant
          · simp [hb]
          · simp only [hb, if_false]
            have := ih (idx + 1) b.date (barsToOhlcv (b :: rest) ++ acc)
            omega

/-- C5: for every provider behaviour (including one that always returns a
single bar timestamped at the prior cursor, so that the cursor never
advances), `get_historical_bars` issues at most `max_iterations = 200`
paginated provider data requests and terminates with the accumulated
(possibly partial) bar list — `fetchLoop` and `getHistoricalBars` are
total Lean functions, so termination is by construction, and the request
budget is bounded by the iteration ceiling. -/
theorem c5_pagination_terminates (a : TWSAdapter)
    (qualifyRes : Except PyErr Bool) (provider : Provider) (tr : TimeRange) :
    (getHistoricalBars a qualifyRes provider tr).2.dataRequests ≤
      maxIterations := by
  unfold getHistoricalBars
  by_cases hc : a.connected = false
  · simp [hc, maxIterations]
  · simp only [hc, if_false]
    cases qualifyRes with
    | error err => simp [maxIterations]
    | ok b =>
      cases b
      · simp [maxIterations]
      · simpa using fetchLoop_calls_le provider tr.start maxIterations 0
          tr.stop.instant []

/-- C10: calls made while the adapter is not connected — as it is after
construction, or after a disconnect that follows a successful connect —
raise immediately: both entry points return the not-connected error with
a call trace showing that no contract was built and no provider request
(qualification or data) was issued. -/
theorem c10_not_connected_rejected :
    initAdapter.connected = false ∧
    (∀ a : TWSAdapter, (disconnectA (connectA a)).connected = false) ∧
    (∀ (a : TWSAdapter) (qualifyRes : Except PyErr Bool)
      (provider : Provider) (tr : TimeRange),
      a.connected = false →
      getHistoricalBars a qualifyRes provider tr =
        (.error .notConnected, ⟨0, 0, 0⟩)) ∧
    (∀ (a : TWSAdapter) (outcome : Symbol → FetchOutcome)
      (symbols : List Symbol),
      a.connected = false →
      getHistoricalBarsMultiple a outcome symbols =
        .error .notConnected) := by
  refine ⟨rfl, ?_, ?_, ?_⟩
  · intro a
    simp [disconnectA, connectA]
  · intro a q p tr h
    simp [getHistoricalBars, h]
  · intro a outcome symbols h
    simp [getHistoricalBarsMultiple, h]

/-- Witness for C10 at a concrete disconnected adapter and request. -/
theorem c10_not_connected_rejected_witness :
    getHistoricalBars initAdapter (.ok true)
        (fun _ _ => .ok []) ⟨⟨0, some 0⟩, ⟨1000000, some 0⟩⟩ =
      (.error .notConnected, ⟨0, 0, 0⟩) ∧
    getHistoricalBarsMultiple initAdapter (fun _ => .ok []) [] =
      .error .notConnected :=
  ⟨c10_not_connected_rejected.2.2.1 initAdapter (.ok true) _ _ rfl,
   c10_not_connected_rejected.2.2.2 initAdapter _ [] rfl⟩

/-- Effect of overwriting one list entry on a `countP` count, stated in
subtraction-free form. -/
theorem countP_set_balance (p : TaskPhase → Bool) :
    ∀ (l : List TaskPhase) (i : Nat) (old new : TaskPhase),
      l.get? i = some old →
      (setPhase l i new).countP p + (if p old then 1 else 0) =
        l.countP p + (if p new then 1 else 0) := by
  intro l
  induction l with
  | nil => intro i old new h; simp at h
  | cons x rest ih =>
    intro i old new h
    cases i with
    | zero =>
      simp only [List.get?] at h
      cases h
      simp only [setPhase, List.set, List.countP_cons]
      omega
    | succ j =>
      simp only [List.get?] at h
      have := ih j old new h
      simp only [setPhase, List.set, List.countP_cons] at this ⊢
      omega

/-- Invariant of the concurrency gate: at every reachable state the number
of tasks inside their guarded section plus the free permits equals the
configured limit. -/
theorem sched_running_permits (limit n : Nat) (s : SchedState)
    (h : SchedReachable limit n s) :
    runningCount s.phases + s.permits = limit := by
  induction h with
  | refl =>
    simp [SchedState.init, runningCount]
  | tail hsteps hstep ih =>
    cases hstep with
    | acquire i hi hp =>
      have hbal := countP_set_balance (fun p => p = .running)
        _ i .pending .running hi
      simp only [runningCount] at ih ⊢
      simp at hbal
      omega
    | release i hi =>
      have hbal := countP_set_balance (fun p => p = .running)
        _ i .running .done hi
      simp only [runningCount] at ih ⊢
      simp at hbal
      omega

/-- C9: in every state reachable during a batch run, no more than
`max_concurrent` of the per-instrument retrievals are inside their
semaphore-guarded section simultaneously, regardless of how many symbols
were submitted. -/
theorem c9_concurrency_bound (limit n : Nat) (s : SchedState)
    (h : SchedReachable limit n s) :
    runningCount s.phases ≤ limit := by
  have := sched_running_permits limit n s h
  omega

/-- Witness for C9: a concrete reachable state of a 3-task batch under
limit 2 (two tasks have entered the gate) respects the bound. -/
theorem c9_concurrency_bound_witness :
    runningCount (SchedState.init 2 3).phases ≤ 2 :=
  c9_concurrency_bound 2 3 (SchedState.init 2 3) Relation.ReflTransGen.refl

/-- C7: TimeRange construction fails (with `ValueError`) whenever end is
not strictly after start; every successfully constructed TimeRange has
both endpoints timezone-aware — a naive endpoint is stamped as UTC — and
consequently a strictly positive duration, so a zero- or negative-length
range can never reach a provider call. -/
theorem c7_time_range_invariant (s e : PyDatetime) :
    (dtLe e s = .ok true → TimeRange.make s e = .error .valueError) ∧
    (∀ tr : TimeRange, TimeRange.make s e = .ok tr →
      tr.start.tz.isSome ∧ tr.stop.tz.isSome ∧
      (s.tz = none → tr.start.tz = some 0) ∧
      (e.tz = none → tr.stop.tz = some 0) ∧
      0 < tr.spanUs) := by
  constructor
  · intro h
    unfold TimeRange.make
    rw [h]
  · intro tr htr
    unfold TimeRange.make at htr
    cases hstz : s.tz with
    | none =>
      cases hetz : e.tz with
      | none =>
        simp only [dtLe, hstz, hetz] at htr
        by_cases hw : e.wall ≤ s.wall
        · simp [hw] at htr
        · simp only [hw, decide_eq_true_eq, decide_eq_false hw] at htr
          cases htr
          refine ⟨?_, ?_, ?_, ?_, ?_⟩
          all_goals simp [toUtcIfNaive, hstz, hetz, TimeRange.spanUs,
            PyDatetime.instant]
          omega
      | some ze =>
        simp [dtLe, hstz, hetz] at htr
    | some zs =>
      cases hetz : e.tz with
      | none =>
        simp [dtLe, hstz, hetz] at htr
      | some ze =>
        simp only [dtLe, hstz, hetz] at htr
        by_cases hi : e.instant ≤ s.instant
        · simp [hi] at htr
        · simp only [hi, decide_eq_false hi] at htr
          cases htr
          refine ⟨?_, ?_, ?_, ?_, ?_⟩
          all_goals simp [toUtcIfNaive, hstz, hetz, TimeRange.spanUs]
          omega

/-- Witness for C7: a degenerate range is rejected, and the constructed
range over a concrete naive pair is UTC-aware with positive span. -/
theorem c7_time_range_invariant_witness :
    TimeRange.make ⟨0, none⟩ ⟨0, none⟩ = .error .valueError ∧
    ((⟨⟨0, some 0⟩, ⟨1000000, some 0⟩⟩ : TimeRange).start.tz.isSome ∧
      (⟨⟨0, some 0⟩, ⟨1000000, some 0⟩⟩ : TimeRange).stop.tz.isSome ∧
      0 < (⟨⟨0, some 0⟩, ⟨1000000, some 0⟩⟩ : TimeRange).spanUs) := by
  constructor
  · exact (c7_time_range_invariant ⟨0, none⟩ ⟨0, none⟩).1 rfl
  · have h := (c7_time_range_invariant ⟨0, none⟩ ⟨1000000, none⟩).2
      ⟨⟨0, some 0⟩, ⟨1000000, some 0⟩⟩ rfl
    exact ⟨h.1, h.2.1, h.2.2.2.2⟩

/-- C3 counterexample: a valid TimeRange spanning 1.5 seconds (datetimes
have microsecond resolution) is classified as "1 S" because
`int(delta.total_seconds())` truncates, and the returned window covers
only 1 second — strictly smaller than the requested span. -/
theorem c3_counterexample :
    TimeRange.make ⟨0, some 0⟩ ⟨1500000, some 0⟩ =
      .ok ⟨⟨0, some 0⟩, ⟨1500000, some 0⟩⟩ ∧
    computeDurationStr ⟨⟨0, some 0⟩, ⟨1500000, some 0⟩⟩ =
      .ok (.S 1) ∧
    coverUs (.S 1) <
      (⟨⟨0, some 0⟩, ⟨1500000, some 0⟩⟩ : TimeRange).spanUs := by
  refine ⟨rfl, rfl, ?_⟩
  simp [coverUs, TimeRange.spanUs, PyDatetime.instant]

/-- C3 amended: for every valid TimeRange whose span is a whole number of
seconds, `_compute_duration_str` classifies the span exactly as the spec's
ascending thresholds prescribe (`plannerSpec`, with every magnitude the
ceiling of the span over the unit length) and the resulting window covers
at least the requested span.  (For fractional spans the span is first
truncated to whole seconds, so coverage can fall short; see the
counterexample.) -/
theorem c3_window_planner_covers (tr : TimeRange) (k : Nat) (hk : 0 < k)
    (hspan : tr.spanUs = 1000000 * (k : Int)) :
    computeDurationStr tr = .ok (plannerSpec k) ∧
    tr.spanUs ≤ coverUs (plannerSpec k) := by
  have htot : tr.spanUs.toNat / 1000000 = k := by omega
  have hw : ceilDiv (ceilDiv k 86400) 7 = ceilDiv k 604800 := by
    have h := ceilDiv_ceilDiv (a := 86400) (b := 7) (by norm_num) (by norm_num) k
    norm_num at h
    exact h
  have hm : ceilDiv (ceilDiv k 86400) 30 = ceilDiv k 2592000 := by
    have h := ceilDiv_ceilDiv (a := 86400) (b := 30) (by norm_num) (by norm_num) k
    norm_num at h
    exact h
  have hy : ceilDiv (ceilDiv k 86400) 365 = ceilDiv k 31536000 := by
    have h := ceilDiv_ceilDiv (a := 86400) (b := 365) (by norm_num) (by norm_num) k
    norm_num at h
    exact h
  have hdayle : (k : Int) ≤ 86400 * (ceilDiv k 86400 : Nat) := by
    exact_mod_cast le_mul_ceilDiv (by norm_num) k
  have hweekle : (k : Int) ≤ 604800 * (ceilDiv k 604800 : Nat) := by
    exact_mod_cast le_mul_ceilDiv (d := 604800) (by norm_num) k
  have hmonthle : (k : Int) ≤ 2592000 * (ceilDiv k 2592000 : Nat) := by
    exact_mod_cast le_mul_ceilDiv (d := 2592000) (by norm_num) k
  have hyearle : (k : Int) ≤ 31536000 * (ceilDiv k 31536000 : Nat) := by
    exact_mod_cast le_mul_ceilDiv (d := 31536000) (by norm_num) k
  constructor
  · by_cases h1 : k ≤ 86400
    · simp [computeDurationStr, plannerSpec, htot, h1, hk.ne']
    · by_cases h2 : ceilDiv k 86400 ≤ 365
      · simp [computeDurationStr, plannerSpec, htot, h1, h2, hk.ne']
      · by_cases h3 : ceilDiv k 604800 ≤ 260
        · simp [computeDurationStr, plannerSpec, htot, h1, h2, h3,
            hk.ne', hw]
        · by_cases h4 : ceilDiv k 2592000 ≤ 60
          · simp [computeDurationStr, plannerSpec, htot, h1, h2, h3, h4,
              hk.ne', hw, hm]
          · simp [computeDurationStr, plannerSpec, htot, h1, h2, h3, h4,
              hk.ne', hw, hm, hy]
  · rw [hspan]
    by_cases h1 : k ≤ 86400
    · simp [plannerSpec, coverUs, h1]
      omega
    · by_cases h2 : ceilDiv k 86400 ≤ 365
      · simp [plannerSpec, coverUs, h1, h2]
        omega
      · by_cases h3 : ceilDiv k 604800 ≤ 260
        · simp [plannerSpec, coverUs, h1, h2, h3]
          omega
        · by_cases h4 : ceilDiv k 2592000 ≤ 60
          · simp [plannerSpec, coverUs, h1, h2, h3, h4]
            omega
          · simp [plannerSpec, coverUs, h1, h2, h3, h4]
            omega

/-- Witness for C3 (amended) on a concrete 2-second range. -/
theorem c3_window_planner_covers_witness :
    computeDurationStr ⟨⟨0, some 0⟩, ⟨2000000, some 0⟩⟩ =
      .ok (plannerSpec 2) ∧
    (⟨⟨0, some 0⟩, ⟨2000000, some 0⟩⟩ : TimeRange).spanUs ≤
      coverUs (plannerSpec 2) :=
  c3_window_planner_covers ⟨⟨0, some 0⟩, ⟨2000000, some 0⟩⟩ 2
    (by norm_num) (by simp [TimeRange.spanUs, PyDatetime.instant])

/-- C2 counterexample: with a connected adapter and a provider whose chunk
fetch raises a provider-level error on the very first call, the claim says
`get_historical_bars` surfaces the error to its caller; the code instead
catches it (`except Exception: return []`) and returns a normal, empty
result — the first component below is `.ok []`, not an `.error`. -/
theorem c2_counterexample :
    getHistoricalBars ⟨true, true⟩ (.ok true) (fun _ _ => .error .valueError)
        ⟨⟨0, some 0⟩, ⟨86400000000, some 0⟩⟩ =
      (.ok [], ⟨1, 1, 1⟩) := by
  rfl

/-- C2 amended: whenever the provider raises during a chunk fetch,
`get_historical_bars` aborts the pagination loop and returns an empty
list as a normal result — the error is swallowed, not surfaced (stated
both for an arbitrary loop state and for the entry point as a whole). -/
theorem c2_provider_error_swallowed :
    (∀ (provider : Provider) (startDt : PyDatetime) (fuel idx : Nat)
        (cur : Int) (acc : List OHLCV) (d : DurationStr) (err : PyErr),
      durationFor startDt cur = .ok d →
      provider idx cur = .error err →
      fetchLoop provider startDt (fuel + 1) idx cur acc = ([], 1)) ∧
    (∀ (a : TWSAdapter) (provider : Provider) (tr : TimeRange)
        (d : DurationStr) (err : PyErr),
      a.connected = true →
      durationFor tr.start tr.stop.instant = .ok d →
      provider 0 tr.stop.instant = .error err →
      getHistoricalBars a (.ok true) provider tr = (.ok [], ⟨1, 1, 1⟩)) := by
  have hloop : ∀ (provider : Provider) (startDt : PyDatetime) (fuel idx : Nat)
      (cur : Int) (acc : List OHLCV) (d : DurationStr) (err : PyErr),
      durationFor startDt cur = .ok d →
      provider idx cur = .error err →
      fetchLoop provider startDt (fuel + 1) idx cur acc = ([], 1) := by
    intro provider startDt fuel idx cur acc d err hd hp
    simp [fetchLoop, hd, hp]
  refine ⟨hloop, ?_⟩
  intro a provider tr d err hc hd hp
  have h200 : fetchLoop provider tr.start maxIterations 0 tr.stop.instant []
      = ([], 1) := by
    have h := hloop provider tr.start 199 0 tr.stop.instant [] d err hd hp
    simpa [maxIterations] using h
  simp [getHistoricalBars, hc, h200]

/-- Witness for C2 (amended) at a concrete failing provider. -/
theorem c2_provider_error_swallowed_witness :
    getHistoricalBars ⟨true, true⟩ (.ok true)
        (fun _ _ => .error .valueError) ⟨⟨0, some 0⟩, ⟨2000000, some 0⟩⟩ =
      (.ok [], ⟨1, 1, 1⟩) :=
  c2_provider_error_swallowed.2 ⟨true, true⟩ _ _ (.S 2) .valueError
    rfl rfl rfl

/-- Mapping provider bars preserves strict date ascension. -/
theorem barsToOhlcv_pairwise (bars : List IBBar)
    (h : List.Pairwise (fun x y : IBBar => x.date < y.date) bars) :
    List.Pairwise (fun x y : OHLCV => x.date < y.date) (barsToOhlcv bars) := by
  unfold barsToOhlcv
  rw [List.pairwise_map]
  exact h

/-- Every mapped bar's date comes from some provider bar of the chunk. -/
theorem barsToOhlcv_mem_date (bars : List IBBar) (o : OHLCV)
    (ho : o ∈ barsToOhlcv bars) : ∃ b ∈ bars, o.date = b.date := by
  unfold barsToOhlcv at ho
  rw [List.mem_map] at ho
  obtain ⟨b, hb, rfl⟩ := ho
  exact ⟨b, hb, rfl⟩

/-- Stitching invariant of the pagination loop: against a provider whose
chunks are strictly ascending and lie strictly before the requested
cursor, the loop keeps the accumulator strictly ascending. -/
theorem fetchLoop_pairwise (provider : Provider) (startDt : PyDatetime)
    (hgood : ∀ (idx : Nat) (cur : Int) (bars : List IBBar),
      provider idx cur = .ok bars →
      List.Pairwise (fun x y : IBBar => x.date < y.date) bars ∧
      ∀ b ∈ bars, b.date < cur) :
    ∀ (fuel idx : Nat) (cur : Int) (acc : List OHLCV),
      List.Pairwise (fun x y : OHLCV => x.date < y.date) acc →
      (∀ o ∈ acc, cur ≤ o.date) →
      List.Pairwise (fun x y : OHLCV => x.date < y.date)
        (fetchLoop provider startDt fuel idx cur acc).1 := by
  intro fuel
  induction fuel with
  | zero =>
    intro idx cur acc hacc hcur
    simpa [fetchLoop] using hacc
  | succ n ih =>
    intro idx cur acc hacc hcur
    cases hd : durationFor startDt cur with
    | error err => simp [fetchLoop, hd]
    | ok d =>
      cases hp : provider idx cur with
      | error err => simp [fetchLoop, hd, hp]
      | ok bars =>
        cases bars with
        | nil => simpa [fetchLoop, hd, hp] using hacc
        | cons b rest =>
          obtain ⟨hpw, hlt⟩ := hgood idx cur (b :: rest) hp
          have hacc2 : List.Pairwise (fun x y : OHLCV => x.date < y.date)
              (barsToOhlcv (b :: rest) ++ acc) := by
            rw [List.pairwise_append]
            refine ⟨barsToOhlcv_pairwise _ hpw, hacc, ?_⟩
            intro x hx y hy
            obtain ⟨bx, hbx, hxd⟩ := barsToOhlcv_mem_date _ _ hx
            have h1 : bx.date < cur := hlt bx hbx
            have h2 : cur ≤ y.date := hcur y hy
            omega
          by_cases hb : b.date ≤ startDt.instant
          · simpa [fetchLoop, hd, hp, hb] using hacc2
          · have hrec := ih (idx + 1) b.date
              (barsToOhlcv (b :: rest) ++ acc) hacc2 ?_
            · simpa [fetchLoop, hd, hp, hb] using hrec
            · intro o ho
              rw [List.mem_append] at ho
              cases ho with
              | inl hchunk =>
                obtain ⟨bx, hbx, hxd⟩ := barsToOhlcv_mem_date _ _ hchunk
                rw [hxd]
                rcases List.mem_cons.mp hbx with h | h
                · rw [h]
                · have hblt := (List.pairwise_cons.mp hpw).1 bx h
                  omega
              | inr haccm =>
                have h1 : cur ≤ o.date := hcur o haccm
                have h2 : b.date < cur := hlt b (List.mem_cons_self b rest)
                omega

/-- C4 counterexample: the provider returns two non-empty strictly
ascending chunks, but the second chunk's last bar sits exactly at the
cursor (the previous chunk's earliest bar date, which IB treats as an
inclusive end time).  The code prepends without deduplication, so the
stitched result has a duplicate timestamp at the chunk boundary and is
not strictly ascending. -/
theorem c4_counterexample :
    (fun idx _cur => if idx = 0
        then .ok [⟨1000000, 1, 1, 1, 1, 5⟩, ⟨2000000, 1, 1, 1, 1, 5⟩]
        else .ok [⟨0, 1, 1, 1, 1, 5⟩, ⟨1000000, 1, 1, 1, 1, 5⟩]
      : Provider) 0 2000000 =
      .ok [⟨1000000, 1, 1, 1, 1, 5⟩, ⟨2000000, 1, 1, 1, 1, 5⟩] ∧
    List.Pairwise (fun x y : IBBar => x.date < y.date)
      [⟨1000000, 1, 1, 1, 1, 5⟩, ⟨2000000, 1, 1, 1, 1, 5⟩] ∧
    (fun idx _cur => if idx = 0
        then .ok [⟨1000000, 1, 1, 1, 1, 5⟩, ⟨2000000, 1, 1, 1, 1, 5⟩]
        else .ok [⟨0, 1, 1, 1, 1, 5⟩, ⟨1000000, 1, 1, 1, 1, 5⟩]
      : Provider) 1 1000000 =
      .ok [⟨0, 1, 1, 1, 1, 5⟩, ⟨1000000, 1, 1, 1, 1, 5⟩] ∧
    List.Pairwise (fun x y : IBBar => x.date < y.date)
      [⟨0, 1, 1, 1, 1, 5⟩, ⟨1000000, 1, 1, 1, 1, 5⟩] ∧
    getHistoricalBars ⟨true, true⟩ (.ok true)
      (fun idx _cur => if idx = 0
        then .ok [⟨1000000, 1, 1, 1, 1, 5⟩, ⟨2000000, 1, 1, 1, 1, 5⟩]
        else .ok [⟨0, 1, 1, 1, 1, 5⟩, ⟨1000000, 1, 1, 1, 1, 5⟩])
      ⟨⟨0, some 0⟩, ⟨2000000, some 0⟩⟩ =
      (.ok [⟨0, 1, 1, 1, 1, some 5⟩, ⟨1000000, 1, 1, 1, 1, some 5⟩,
            ⟨1000000, 1, 1, 1, 1, some 5⟩, ⟨2000000, 1, 1, 1, 1, some 5⟩],
       ⟨1, 1, 2⟩) ∧
    ¬ List.Pairwise (fun x y : OHLCV => x.date < y.date)
      [⟨0, 1, 1, 1, 1, some 5⟩, ⟨1000000, 1, 1, 1, 1, some 5⟩,
       ⟨1000000, 1, 1, 1, 1, some 5⟩, ⟨2000000, 1, 1, 1, 1, some 5⟩] := by
  refine ⟨rfl, ?_, rfl, ?_, rfl, ?_⟩
  · decide
  · decide
  · decide

/-- C4 amended: the stitched result of `get_historical_bars` is
chronologically strictly ascending provided every chunk the provider
returns is strictly ascending and lies strictly before the cursor of the
request that fetched it (the source never deduplicates, so a chunk that
repeats the cursor timestamp breaks the property — see the
counterexample). -/
theorem c4_stitched_ascending (a : TWSAdapter) (provider : Provider)
    (tr : TimeRange) (hc : a.connected = true)
    (hgood : ∀ (idx : Nat) (cur : Int) (bars : List IBBar),
      provider idx cur = .ok bars →
      List.Pairwise (fun x y : IBBar => x.date < y.date) bars ∧
      ∀ b ∈ bars, b.date < cur) :
    ∃ bars : List OHLCV,
      (getHistoricalBars a (.ok true) provider tr).1 = .ok bars ∧
      List.Pairwise (fun x y : OHLCV => x.date < y.date) bars := by
  refine ⟨(fetchLoop provider tr.start maxIterations 0 tr.stop.instant []).1,
    ?_, ?_⟩
  · simp [getHistoricalBars, hc]
  · exact fetchLoop_pairwise provider tr.start hgood maxIterations 0
      tr.stop.instant [] (by simp) (by simp)

/-- Witness for C4 (amended) at a concrete well-behaved provider. -/
theorem c4_stitched_ascending_witness :
    ∃ bars : List OHLCV,
      (getHistoricalBars ⟨true, true⟩ (.ok true) (fun _ _ => .ok [])
        ⟨⟨0, some 0⟩, ⟨2000000, some 0⟩⟩).1 = .ok bars ∧
      List.Pairwise (fun x y : OHLCV => x.date < y.date) bars :=
  c4_stitched_ascending ⟨true, true⟩ (fun _ _ => .ok [])
    ⟨⟨0, some 0⟩, ⟨2000000, some 0⟩⟩ rfl
    (by intro idx cur bars h
        cases h
        simp)

/-- Does this per-symbol outcome make `_fetch_one` raise (anything other
than a timeout or a normal return)? -/
def FetchOutcome.raises : FetchOutcome → Bool
  | .exn _ => true
  | _ => false

theorem dictGet_dictSet_self (d : BarsDict) (k : Symbol) (v : List OHLCV) :
    dictGet (dictSet d k v) k = some v := by
  induction d with
  | nil => simp [dictSet, dictGet]
  | cons p rest ih =>
    obtain ⟨k₀, v₀⟩ := p
    by_cases h : k₀ = k
    · simp [dictSet, dictGet, h]
    · simp [dictSet, dictGet, h, ih]

theorem dictGet_dictSet_other (d : BarsDict) (k t : Symbol) (v : List OHLCV)
    (hne : t ≠ k) : dictGet (dictSet d t v) k = dictGet d k := by
  induction d with
  | nil => simp [dictSet, dictGet, hne]
  | cons p rest ih =>
    obtain ⟨k₀, v₀⟩ := p
    by_cases h : k₀ = t
    · subst h
      simp [dictSet, dictGet, hne]
    · simp [dictSet, dictGet, h, ih]

/-- Symbols that never get written (not scheduled, or raising) keep
whatever binding the accumulator already had. -/
theorem mergeResults_dictGet_skip (outcome : Symbol → FetchOutcome)
    (k : Symbol) :
    ∀ (symbols : List Symbol) (acc : BarsDict),
      (k ∉ symbols ∨ (outcome k).raises = true) →
      dictGet (mergeResults acc (symbols.map (fetchOne outcome))) k =
        dictGet acc k := by
  intro symbols
  induction symbols with
  | nil => intro acc _; simp [mergeResults]
  | cons t rest ih =>
    intro acc hk
    have hk' : k ∉ rest ∨ (outcome k).raises = true := by
      cases hk with
      | inl h => exact .inl (fun hm => h (List.mem_cons_of_mem t hm))
      | inr h => exact .inr h
    cases hout : outcome t with
    | exn err =>
      simpa [mergeResults, fetchOne, hout] using ih acc hk'
    | ok bars =>
      have hne : t ≠ k := by
        intro he
        subst he
        cases hk with
        | inl h => exact h (List.mem_cons_self t rest)
        | inr h => simp [hout, FetchOutcome.raises] at h
      have := ih (dictSet acc t bars) hk'
      simpa [mergeResults, fetchOne, hout,
        dictGet_dictSet_other acc k t bars hne] using this
    | timeout =>
      have hne : t ≠ k := by
        intro he
        subst he
        cases hk with
        | inl h => exact h (List.mem_cons_self t rest)
        | inr h => simp [hout, FetchOutcome.raises] at h
      have := ih (dictSet acc t []) hk'
      simpa [mergeResults, fetchOne, hout,
        dictGet_dictSet_other acc k t [] hne] using this

/-- A scheduled symbol whose `_fetch_one` did not raise ends up bound to
its recorded bars. -/
theorem mergeResults_dictGet_mem (outcome : Symbol → FetchOutcome)
    (k : Symbol) :
    ∀ (symbols : List Symbol) (acc : BarsDict),
      k ∈ symbols → (outcome k).raises = false →
      dictGet (mergeResults acc (symbols.map (fetchOne outcome))) k =
        some (recordedBars outcome k) := by
  intro symbols
  induction symbols with
  | nil => intro acc h _; simp at h
  | cons t rest ih =>
    intro acc hmem hraise
    by_cases hr : k ∈ rest
    · cases hout : outcome t with
      | exn err =>
        simpa [mergeResults, fetchOne, hout] using
          ih (acc) hr hraise
      | ok bars =>
        simpa [mergeResults, fetchOne, hout] using
          ih (dictSet acc t bars) hr hraise
      | timeout =>
        simpa [mergeResults, fetchOne, hout] using
          ih (dictSet acc t []) hr hraise
    · have hkt : k = t := by
        rcases List.mem_cons.mp hmem with h | h
        · exact h
        · exact absurd h hr
      subst hkt
      cases hout : outcome k with
      | exn err => simp [hout, FetchOutcome.raises] at hraise
      | ok bars =>
        have hskip := mergeResults_dictGet_skip outcome k rest
          (dictSet acc k bars) (.inl hr)
        simp only [List.map_cons, mergeResults, fetchOne, hout]
        rw [hskip, dictGet_dictSet_self]
        simp [recordedBars, hout]
      | timeout =>
        have hskip := mergeResults_dictGet_skip outcome k rest
          (dictSet acc k []) (.inl hr)
        simp only [List.map_cons, mergeResults, fetchOne, hout]
        rw [hskip, dictGet_dictSet_self]
        simp [recordedBars, hout]

/-- C1 counterexample: a batch over ["A", "B"] where instrument "A"'s
fetch raises a non-timeout exception (for example a contract that fails
qualification).  The merge loop skips exception items
(`if isinstance(result, Exception): continue`), so the returned mapping
does not contain "A" at all — contradicting the claim that every
requested symbol is a key (mapped to an empty sequence on failure). -/
theorem c1_counterexample :
    getHistoricalBarsMultiple ⟨true, true⟩
        (fun s => if s = "A" then .exn .qualifyFailed else .ok [])
        ["A", "B"] =
      .ok [("B", [])] ∧
    dictGet [("B", [])] "A" = none := by
  constructor
  · rfl
  · rfl

/-- C1 amended: a batch call on a connected adapter never fails and
returns a mapping in which every requested symbol whose per-instrument
fetch completed or timed out appears — timeouts and failures handled
inside the retrieval map to the empty sequence, successes to their bars —
but a symbol whose fetch raised an uncaught (non-timeout) exception is
omitted from the mapping rather than mapped to an empty sequence. -/
theorem c1_batch_mapping (a : TWSAdapter)
    (outcome : Symbol → FetchOutcome) (symbols : List Symbol)
    (hc : a.connected = true) :
    ∃ m : BarsDict,
      getHistoricalBarsMultiple a outcome symbols = .ok m ∧
      (∀ s ∈ symbols, (outcome s).raises = false →
        dictGet m s = some (recordedBars outcome s)) ∧
      (∀ s : Symbol, (outcome s).raises = true → dictGet m s = none) := by
  refine ⟨mergeResults [] (symbols.map (fetchOne outcome)), ?_, ?_, ?_⟩
  · simp [getHistoricalBarsMultiple, hc]
  · intro s hs hraise
    exact mergeResults_dictGet_mem outcome s symbols [] hs hraise
  · intro s hraise
    have := mergeResults_dictGet_skip outcome s symbols [] (.inr hraise)
    simpa [dictGet] using this

/-- Witness for C1 (amended) at a concrete two-symbol batch. -/
theorem c1_batch_mapping_witness :
    ∃ m : BarsDict,
      getHistoricalBarsMultiple ⟨true, true⟩
        (fun s => if s = "A" then .timeout
                  else .ok [⟨0, 1, 1, 1, 1, none⟩]) ["A", "B"] = .ok m ∧
      dictGet m "A" = some [] ∧
      dictGet m "B" = some [⟨0, 1, 1, 1, 1, none⟩] := by
  obtain ⟨m, hm, hmem, _⟩ := c1_batch_mapping ⟨true, true⟩
    (fun s => if s = "A" then .timeout else .ok [⟨0, 1, 1, 1, 1, none⟩])
    ["A", "B"] rfl
  refine ⟨m, hm, ?_, ?_⟩
  · have := hmem "A" (by simp) (by simp [FetchOutcome.raises])
    simpa [recordedBars] using this
  · have := hmem "B" (by simp) (by simp [FetchOutcome.raises])
    simpa [recordedBars] using this

/-- C6: on a connected adapter, a symbol whose retrieval exceeds the
per-request timeout is recorded in the result mapping with an empty bar
sequence, the batch still returns a mapping (the timeout is never
propagated as a batch-level failure), and every sibling whose retrieval
completed normally keeps exactly its own fetched bars. -/
theorem c6_timeout_isolated (a : TWSAdapter)
    (outcome : Symbol → FetchOutcome) (symbols : List Symbol) (s : Symbol)
    (hc : a.connected = true) (hs : s ∈ symbols)
    (ht : outcome s = .timeout) :
    ∃ m : BarsDict,
      getHistoricalBarsMultiple a outcome symbols = .ok m ∧
      dictGet m s = some [] ∧
      ∀ (t : Symbol) (bars : List OHLCV), t ∈ symbols →
        outcome t = .ok bars → dictGet m t = some bars := by
  refine ⟨mergeResults [] (symbols.map (fetchOne outcome)), ?_, ?_, ?_⟩
  · simp [getHistoricalBarsMultiple, hc]
  · have := mergeResults_dictGet_mem outcome s symbols [] hs
      (by simp [ht, FetchOutcome.raises])
    simpa [recordedBars, ht] using this
  · intro t bars hts hok
    have := mergeResults_dictGet_mem outcome t symbols [] hts
      (by simp [hok, FetchOutcome.raises])
    simpa [recordedBars, hok] using this

/-- Witness for C6: a concrete three-symbol batch in which "B" times out
while "A" and "C" return bars. -/
theorem c6_timeout_isolated_witness :
    ∃ m : BarsDict,
      getHistoricalBarsMultiple ⟨true, true⟩
        (fun s => if s = "B" then .timeout
                  else .ok [⟨0, 2, 3, 1, 2, some 7⟩]) ["A", "B", "C"] =
        .ok m ∧
      dictGet m "B" = some [] ∧
      ∀ (t : Symbol) (bars : List OHLCV), t ∈ ["A", "B", "C"] →
        (fun s => if s = "B" then FetchOutcome.timeout
                  else .ok [⟨0, 2, 3, 1, 2, some 7⟩]) t = .ok bars →
        dictGet m t = some bars :=
  c6_timeout_isolated ⟨true, true⟩
    (fun s => if s = "B" then .timeout else .ok [⟨0, 2, 3, 1, 2, some 7⟩])
    ["A", "B", "C"] "B" rfl (by simp) (by simp)

end StockData
